import Mathlib

/-!
Verification of `visualize_zarr.py`: a shallow embedding of the viewer-state
builder (`build_state`), the JSON serialization / percent-encoding of the
state (`main`, lines 141–143), the CORS request handler headers, and the
orchestration control flow of `main` (validation → symlinks → name check →
port probe → server start → URL printing).

Strings from the Python source are modelled as lists of Unicode code points
(`Str := List Nat`); after JSON serialization with `ensure_ascii` every code
point is ASCII, so code points coincide with the UTF-8 bytes that
`urllib.parse.quote` operates on.
-/

/-- A Python string, as its list of Unicode code points. -/
abbrev Str := List Nat

/-- Code points of a Lean string literal, used to transliterate the
Python string literals of the source. -/
def str (s : String) : Str := s.data.map Char.toNat

example : str "ab" = [97, 98] := by decide

example : str ".zarr" = [46, 122, 97, 114, 114] := rfl

/-! ## Viewer state builder (`build_state`, lines 56–92) -/

/-- The exceptions `main` / `build_state` can raise:
`badZarr`/`badNii` are the two `SystemExit`s of the validation loop
(lines 107–111), `nameCount` the `SystemExit` of line 124, `portBusy` the
`SystemExit` of line 131, and `typeCount` the `SystemError` of line 80. -/
inductive ExitErr where
  | badZarr (p : Str)
  | badNii (p : Str)
  | nameCount
  | portBusy
  | typeCount (ts : List Str)
deriving DecidableEq

/-- A `build_state` argument: either a single string or a list of strings
(the `isinstance(x, list)` branching of lines 69–74). -/
inductive StrOrList where
  | single (s : Str)
  | list (l : List Str)
deriving DecidableEq

/-- The list-wrapping of lines 69–74: a non-list value becomes a
one-element list. -/
def StrOrList.toList : StrOrList → List Str
  | .single s => [s]
  | .list l => l

/-- One entry of the `layers` list built at lines 82–89. -/
structure Layer where
  type : Str
  source : Str
  name : Str
deriving DecidableEq

/-- The dictionary `{"layers": layers}` returned at line 92. -/
structure ViewerState where
  layers : List Layer
deriving DecidableEq

/-- Python list repetition `l * n`. -/
def repeatList (l : List Str) : Nat → List Str
  | 0 => []
  | n + 1 => l ++ repeatList l n

/-- The comprehension over `zip(file_http_url, layer_name, file_type)`
at lines 82–89: `zip` stops at the shortest input. -/
def mkLayers : List Str → List Str → List Str → List Layer
  | u :: us, n :: ns, t :: ts =>
      ⟨str "image", t ++ str "://" ++ u, n⟩ :: mkLayers us ns ts
  | _, _, _ => []

/-- `build_state(file_http_url, layer_name, file_type='zarr')`
(lines 56–92): wrap non-list arguments, broadcast a length-1 type list
over the URLs, raise `SystemError` when `1 < len(file_type) <
len(file_http_url)`, then zip the three lists into layers. -/
def buildState (file_http_url layer_name : StrOrList)
    (file_type : StrOrList := .single (str "zarr")) :
    Except ExitErr ViewerState :=
  let urls := file_http_url.toList
  let names := layer_name.toList
  let types := file_type.toList
  if types.length < urls.length then
    if types.length = 1 then
      .ok ⟨mkLayers urls names (repeatList types urls.length)⟩
    else
      .error (ExitErr.typeCount types)
  else
    .ok ⟨mkLayers urls names types⟩

example :
    buildState (.list [str "u1", str "u2"]) (.list [str "A", str "B"])
      (.single (str "zarr")) =
    .ok ⟨[⟨str "image", str "zarr://u1", str "A"⟩,
          ⟨str "image", str "zarr://u2", str "B"⟩]⟩ := rfl

/-! ## JSON serialization (`json.dumps(state, separators=(",", ":"))`,
line 141, CPython `json` with `ensure_ascii=True`) -/

/-- Lowercase hex digit, as used by `json`'s `\uXXXX` escapes. -/
def hexLower (n : Nat) : Nat := if n < 10 then 48 + n else 87 + n

/-- A `\uXXXX` escape for a code unit. -/
def u4 (c : Nat) : List Nat :=
  [92, 117, hexLower (c / 4096 % 16), hexLower (c / 256 % 16),
   hexLower (c / 16 % 16), hexLower (c % 16)]

/-- CPython `json` string escaping with `ensure_ascii=True`: `\"` and `\\`
and the five short control escapes, `\uXXXX` for other characters outside
`0x20`–`0x7E`, surrogate pairs above `0xFFFF`, everything else literal. -/
def jsonEscapeChar (c : Nat) : List Nat :=
  if c = 34 then [92, 34]
  else if c = 92 then [92, 92]
  else if c = 8 then [92, 98]
  else if c = 9 then [92, 116]
  else if c = 10 then [92, 110]
  else if c = 12 then [92, 102]
  else if c = 13 then [92, 114]
  else if 32 ≤ c ∧ c ≤ 126 then [c]
  else if c < 65536 then u4 c
  else u4 (55296 + (c - 65536) / 1024 % 1024) ++ u4 (56320 + (c - 65536) % 1024)

/-- Concatenation of the images of a list under `f`. -/
def concatMap (f : α → List β) : List α → List β
  | [] => []
  | x :: xs => f x ++ concatMap f xs

/-- A JSON string literal: quote, escaped characters, quote. -/
def jsonStr (s : Str) : List Nat := 34 :: concatMap jsonEscapeChar s ++ [34]

/-- Join with the `","` item separator of `separators=(",", ":")`. -/
def joinComma : List (List Nat) → List Nat
  | [] => []
  | [x] => x
  | x :: y :: xs => x ++ 44 :: joinComma (y :: xs)

/-- Serialization of one layer dictionary, in insertion order
`"type"`, `"source"`, `"name"` (lines 83–87), with `":"` as the
key separator and no whitespace. -/
def serializeLayer (l : Layer) : List Nat :=
  123 :: (jsonStr (str "type") ++ 58 :: jsonStr l.type ++
    44 :: jsonStr (str "source") ++ 58 :: jsonStr l.source ++
    44 :: jsonStr (str "name") ++ 58 :: jsonStr l.name) ++ [125]

/-- Serialization of `{"layers": [...]}` (line 141):
compact JSON, single key `"layers"`, array of layers. -/
def serializeState (st : ViewerState) : List Nat :=
  123 :: jsonStr (str "layers") ++ 58 :: 91 ::
    joinComma (st.layers.map serializeLayer) ++ [93, 125]

example :
    serializeState ⟨[⟨str "image", str "zarr://u", str "A"⟩]⟩ =
    str "\x7b\"layers\":[\x7b\"type\":\"image\",\"source\":\"zarr://u\",\"name\":\"A\"\x7d]\x7d" := by
  decide

/-! ## Percent-encoding (`urllib.parse.quote(state_json, safe="")`,
line 142) and decoding (`urllib.parse.unquote`) -/

/-- Uppercase hex digit, as used by `quote`'s `%XX` escapes. -/
def hexUpper (n : Nat) : Nat := if n < 10 then 48 + n else 55 + n

/-- `quote`'s always-safe set with `safe=""`: the unreserved URL
characters `A`–`Z`, `a`–`z`, `0`–`9`, `_`, `.`, `-`, `~`. -/
def isUnreservedChar (c : Nat) : Bool :=
  (65 ≤ c && c ≤ 90) || (97 ≤ c && c ≤ 122) || (48 ≤ c && c ≤ 57) ||
    c == 95 || c == 46 || c == 45 || c == 126

/-- `quote` on one byte: kept when unreserved, otherwise `%XX`. -/
def encodeByte (b : Nat) : List Nat :=
  if isUnreservedChar b then [b] else [37, hexUpper (b / 16), hexUpper (b % 16)]

/-- `quote(s, safe="")` over the bytes of `s`. -/
def percentEncode : List Nat → List Nat
  | [] => []
  | b :: rest => encodeByte b ++ percentEncode rest

/-- Hex digits accepted by `unquote` (either case). -/
def isHexDigitChar (c : Nat) : Bool :=
  (48 ≤ c && c ≤ 57) || (65 ≤ c && c ≤ 70) || (97 ≤ c && c ≤ 102)

/-- Value of a hex digit character. -/
def hexVal (c : Nat) : Nat :=
  if 48 ≤ c && c ≤ 57 then c - 48
  else if 65 ≤ c && c ≤ 70 then c - 55
  else if 97 ≤ c && c ≤ 102 then c - 87
  else 0

/-- `urllib.parse.unquote`: decode each `%XX` with two hex digits,
keep a malformed `%` literal. -/
def percentDecode : List Nat → List Nat
  | [] => []
  | c :: h1 :: h2 :: rest =>
    if c == 37 && isHexDigitChar h1 && isHexDigitChar h2 then
      (16 * hexVal h1 + hexVal h2) :: percentDecode rest
    else
      c :: percentDecode (h1 :: h2 :: rest)
  | c :: rest => c :: percentDecode rest

example : percentEncode (str "a b") = [97, 37, 50, 48, 98] := by decide
example : percentDecode [97, 37, 50, 48, 98] = str "a b" := by decide

/-- `NEUROGLANCER_DEMO` (line 15). -/
def NEUROGLANCER_DEMO : List Nat := str "https://neuroglancer-demo.appspot.com/#!"

/-! ## Orchestration (`main`, lines 94–157) -/

/-- Parsed command-line arguments (lines 95–102). `name = none` models an
absent `--name` flag, `name = some []` a `--name` flag given with zero
values (`nargs='*'`). `file_type = none` models an absent `--file_type`. -/
structure Args where
  file_path : List Str
  host : Str
  port : Nat
  name : Option (List Str)
  file_type : Option Str
  no_open : Bool

/-- The parts of the operating system `main` consults — `os.path.abspath`,
`os.path.isdir` (on the absolute path), and whether
`is_port_in_use(host, port)` reports the requested port bound — together
with `fileExists` (`os.path.exists`), a filesystem fact the validation
loop never consults: line 110 tests only `isdir` and the suffix. -/
structure Env where
  abspath : Str → Str
  isDir : Str → Bool
  fileExists : Str → Bool
  portInUse : Bool

/-- Externally observable actions of `main`, in program order: creating the
temporary root (line 115), removing a pre-existing link (line 120), creating
a symlink (line 121), probing the port by opening a client socket
(lines 37–40 via line 128), binding and starting the listener (line 129),
printing the final URL (line 146), opening the browser (line 150). -/
inductive Event where
  | mkdtemp
  | removeLink (base : Str)
  | symlink (src base : Str)
  | probe
  | startServer
  | printUrl (u : List Nat)
  | openBrowser (u : List Nat)
deriving DecidableEq

/-- `s.rstrip("/")`: drop trailing slashes. -/
def rstripSlash (s : Str) : Str :=
  (s.reverse.dropWhile (fun c => c == 47)).reverse

/-- `os.path.basename`: the part after the last `/`
(empty when the string ends in `/`). -/
def basename (s : Str) : Str :=
  (s.reverse.takeWhile (fun c => !(c == 47))).reverse

example : basename (str "/tmp/a/vol.zarr") = str "vol.zarr" := by decide
example : rstripSlash (str "/tmp/a/vol.zarr//") = str "/tmp/a/vol.zarr" := by decide

/-- `file_paths = [os.path.abspath(fp.rstrip("/")) for fp in args.file_path]`
(line 104). -/
def filePathsOf (a : Args) (env : Env) : List Str :=
  a.file_path.map (fun fp => env.abspath (rstripSlash fp))

/-- One iteration of the validation loop (lines 105–111), as the condition
under which the path is accepted: for `--file_type` absent or `"zarr"` the
path must be a directory ending in `".zarr"`; for `"nii.gz"` it must be a
non-directory ending in `".nii.gz"`; any other tag is not checked at all. -/
def pathValid (ft : Option Str) (env : Env) (fp : Str) : Bool :=
  if ft = none ∨ ft = some (str "zarr") then
    env.isDir fp && List.isSuffixOf (str ".zarr") fp
  else if ft = some (str "nii.gz") then
    !env.isDir fp && List.isSuffixOf (str ".nii.gz") fp
  else
    true

/-- The validation predicate as the specification words it ("an existing
file (not a directory) ending with that suffix"): unlike `pathValid`,
which embeds the source, the nii.gz branch here additionally requires the
path to exist. Defined from the spec text, for comparison with
`pathValid`. -/
def pathValidSpec (ft : Option Str) (env : Env) (fp : Str) : Bool :=
  if ft = none ∨ ft = some (str "zarr") then
    env.isDir fp && List.isSuffixOf (str ".zarr") fp
  else if ft = some (str "nii.gz") then
    env.fileExists fp && !env.isDir fp && List.isSuffixOf (str ".nii.gz") fp
  else
    true

/-- The `SystemExit` raised for an invalid path: line 108 for the
zarr branch, line 111 for the nii.gz branch. -/
def mkPathErr (ft : Option Str) (p : Str) : ExitErr :=
  if ft = none ∨ ft = some (str "zarr") then .badZarr p else .badNii p

/-- The validation loop fails fast on the first invalid path. -/
def firstBadPath (ft : Option Str) (env : Env) (paths : List Str) :
    Option Str :=
  paths.find? (fun p => !pathValid ft env p)

/-- The symlink loop (lines 116–121) over a freshly created (hence
initially empty) temporary root: `os.path.lexists` holds exactly for the
basenames already linked by this same loop, in which case the old link is
removed first. -/
def symlinkEventsAux (created : List Str) : List Str → List Event
  | [] => []
  | fp :: rest =>
      let base := basename (rstripSlash fp)
      (if base ∈ created then [Event.removeLink base] else []) ++
        Event.symlink fp base :: symlinkEventsAux (base :: created) rest

/-- Events of the whole symlink loop. -/
def symlinkEvents (paths : List Str) : List Event := symlinkEventsAux [] paths

/-- The check `args.name and len(args.name) != len(file_paths)` (line 123):
Python truthiness makes both `None` and `[]` skip the check. -/
def nameMismatch (a : Args) (paths : List Str) : Bool :=
  match a.name with
  | none => false
  | some l => !l.isEmpty && l.length != paths.length

/-- `layer_names = args.name or [os.path.basename(fp) for fp in file_paths]`
(line 125): a `None` or empty override list falls back to basenames. -/
def layerNamesOf (a : Args) (paths : List Str) : List Str :=
  match a.name with
  | none => paths.map basename
  | some l => if l.isEmpty then paths.map basename else l

/-- Decimal digits of a port number (for the f-string of line 134). -/
def decDigitsAux : Nat → Nat → List Nat → List Nat
  | 0, _, acc => acc
  | fuel + 1, n, acc =>
      if n < 10 then (48 + n) :: acc
      else decDigitsAux fuel (n / 10) ((48 + n % 10) :: acc)

/-- Decimal representation of a natural number. -/
def natToDec (n : Nat) : List Nat := decDigitsAux (n + 1) n []

example : natToDec 5000 = str "5000" := by decide

/-- `file_http_urls` (line 134):
`f"http://\x7bargs.host\x7d:\x7bargs.port\x7d/\x7bos.path.basename(fp)\x7d/"`. -/
def httpUrls (a : Args) (paths : List Str) : List Str :=
  paths.map (fun fp =>
    str "http://" ++ a.host ++ 58 :: natToDec a.port ++
      47 :: basename fp ++ [47])

/-- The `build_state` call of lines 135–138: an explicit `--file_type`
string is passed through, otherwise the `'zarr'` default applies. -/
def buildStateMain (a : Args) (urls names : List Str) :
    Except ExitErr ViewerState :=
  match a.file_type with
  | some t => buildState (.list urls) (.list names) (.single t)
  | none => buildState (.list urls) (.list names)

/-- `main` (lines 94–157) as a pure transition sequence: the list of
events emitted before the process either exits with a `SystemExit` /
`SystemError` (`Except.error`) or reaches the final wait (`Except.ok ()`).
Order follows the source: validate every path (no event), create the
temporary root and the symlinks, check the `--name` count, probe the port,
bind the server when free, build the state, print (and maybe open) the
URL. -/
def mainRun (a : Args) (env : Env) : List Event × Except ExitErr Unit :=
  let paths := filePathsOf a env
  match firstBadPath a.file_type env paths with
  | some p => ([], .error (mkPathErr a.file_type p))
  | none =>
    let ev1 := Event.mkdtemp :: symlinkEvents paths
    if nameMismatch a paths then (ev1, .error .nameCount)
    else
      let names := layerNamesOf a paths
      let ev2 := ev1 ++ [Event.probe]
      if env.portInUse then (ev2, .error .portBusy)
      else
        let ev3 := ev2 ++ [Event.startServer]
        match buildStateMain a (httpUrls a paths) names with
        | .error e => (ev3, .error e)
        | .ok st =>
          let url := NEUROGLANCER_DEMO ++ percentEncode (serializeState st)
          let ev4 := ev3 ++ [Event.printUrl url]
          ((if a.no_open then ev4 else ev4 ++ [Event.openBrowser url]), .ok ())

/-! ## CORS request handler (`CORSRequestHandler`, lines 19–35) -/

/-- An HTTP header line. -/
abbrev Header := Str × Str

/-- An HTTP response: status, headers in the order sent, optional body. -/
structure HttpResponse where
  status : Nat
  headers : List Header
  body : Option (List Nat)

/-- `CORSRequestHandler.end_headers` (lines 23–29): append the four CORS /
range headers after whatever headers the response has already sent, then
terminate the header block. -/
def endHeaders (hs : List Header) : List Header :=
  hs ++ [(str "Access-Control-Allow-Origin", str "*"),
         (str "Access-Control-Allow-Headers", str "Range, Content-Type"),
         (str "Access-Control-Expose-Headers",
          str "Content-Length, Content-Range, Accept-Ranges"),
         (str "Accept-Ranges", str "bytes")]

/-- A response of the handler. `http.server`'s `BaseHTTPRequestHandler`
emits every response — success, error, and preflight alike — by sending a
status line and headers and finishing the header block with
`end_headers()`, which `CORSRequestHandler` overrides; so every response of
this server has `endHeaders` applied to its sent headers. -/
def finalizeResponse (status : Nat) (hs : List Header)
    (body : Option (List Nat)) : HttpResponse :=
  ⟨status, endHeaders hs, body⟩

/-- `CORSRequestHandler.do_OPTIONS` (lines 30–35): a 204 response with three
explicitly sent headers, finished by `end_headers`, and no body. -/
def doOptionsResponse : HttpResponse :=
  finalizeResponse 204
    [(str "Access-Control-Allow-Origin", str "*"),
     (str "Access-Control-Allow-Methods", str "GET, OPTIONS"),
     (str "Access-Control-Allow-Headers", str "Range, Content-Type")]
    none

/-! ## Lemmas about `mkLayers` -/

lemma mkLayers_length (us ns ts : List Str) :
    (mkLayers us ns ts).length = min us.length (min ns.length ts.length) := by
  induction us generalizing ns ts with
  | nil => cases ns <;> cases ts <;> simp [mkLayers]
  | cons u us ih =>
    cases ns with
    | nil => cases ts <;> simp [mkLayers]
    | cons n ns =>
      cases ts with
      | nil => simp [mkLayers]
      | cons t ts =>
        simp [mkLayers, ih]
        omega

lemma mkLayers_getElem? (us ns ts : List Str) (i : Nat) (u n t : Str)
    (hu : us[i]? = some u) (hn : ns[i]? = some n) (ht : ts[i]? = some t) :
    (mkLayers us ns ts)[i]? = some ⟨str "image", t ++ str "://" ++ u, n⟩ := by
  induction us generalizing ns ts i with
  | nil => simp at hu
  | cons u0 us ih =>
    cases ns with
    | nil => simp at hn
    | cons n0 ns =>
      cases ts with
      | nil => simp at ht
      | cons t0 ts =>
        cases i with
        | zero =>
          simp only [List.getElem?_cons_zero, Option.some.injEq] at hu hn ht
          subst hu; subst hn; subst ht
          simp [mkLayers]
        | succ j =>
          simp only [List.getElem?_cons_succ] at hu hn ht
          simpa [mkLayers] using ih ns ts j hu hn ht

lemma repeatList_singleton (t : Str) (n : Nat) :
    repeatList [t] n = List.replicate n t := by
  induction n with
  | zero => rfl
  | succ k ih => simp [repeatList, ih, List.replicate_succ]

lemma replicate_getElem? (t : Str) (n i : Nat) (h : i < n) :
    (List.replicate n t)[i]? = some t := by
  induction n generalizing i with
  | zero => omega
  | succ k ih =>
    cases i with
    | zero => simp [List.replicate_succ]
    | succ j => simpa [List.replicate_succ] using ih j (by omega)

/-! ## Claim theorems about `build_state` -/

/-- C2: for `N` URLs, `N` names and a single broadcast type, `build_state`
returns a state with exactly `N` layers, in URL order, the `i`-th being
`{"type": "image", "source": "<type>://<url_i>", "name": "<name_i>"}`. -/
theorem buildState_broadcast_ordered_layers (urls names : List Str) (t : Str)
    (h : names.length = urls.length) :
    ∃ st : ViewerState, buildState (.list urls) (.list names) (.single t) = .ok st ∧
      st.layers.length = urls.length ∧
      ∀ (i : Nat) (u n : Str), urls[i]? = some u → names[i]? = some n →
        st.layers[i]? = some (Layer.mk (str "image") (t ++ str "://" ++ u) n) := by
  by_cases hlt : 1 < urls.length
  · refine ⟨⟨mkLayers urls names (repeatList [t] urls.length)⟩, ?_, ?_, ?_⟩
    · simp only [buildState, StrOrList.toList]
      rw [if_pos (by simpa using hlt)]
      norm_num
    · simp [mkLayers_length, repeatList_singleton, h]
    · intro i u n hu hn
      have hi : i < urls.length := (List.getElem?_eq_some_iff.mp hu).1
      exact mkLayers_getElem? _ _ _ i u n t hu hn
        (by rw [repeatList_singleton]; exact replicate_getElem? t _ i hi)
  · refine ⟨⟨mkLayers urls names [t]⟩, ?_, ?_, ?_⟩
    · simp only [buildState, StrOrList.toList]
      rw [if_neg (by simpa using hlt)]

    · simp only [mkLayers_length, List.length_singleton, h]
      omega
    · intro i u n hu hn
      have hi : i < urls.length := (List.getElem?_eq_some_iff.mp hu).1
      have hi0 : i = 0 := by omega
      subst hi0
      exact mkLayers_getElem? _ _ _ 0 u n t hu hn rfl

/-- Witness for C2 at the spec's own example. -/
theorem buildState_broadcast_ordered_layers_witness :
    ([str "A", str "B"] : List Str).length =
      ([str "http://h:1/a/", str "http://h:1/b/"] : List Str).length ∧
    ∃ st : ViewerState, buildState (.list [str "http://h:1/a/", str "http://h:1/b/"])
        (.list [str "A", str "B"]) (.single (str "zarr")) = .ok st ∧
      st.layers.length =
        ([str "http://h:1/a/", str "http://h:1/b/"] : List Str).length ∧
      ∀ (i : Nat) (u n : Str),
        ([str "http://h:1/a/", str "http://h:1/b/"] : List Str)[i]? = some u →
        ([str "A", str "B"] : List Str)[i]? = some n →
        st.layers[i]? = some (Layer.mk (str "image") (str "zarr" ++ str "://" ++ u) n) :=
  ⟨rfl, buildState_broadcast_ordered_layers _ _ (str "zarr") rfl⟩

/-- C9: `build_state` on single (non-list) values equals `build_state` on
the corresponding singleton lists, and a single-resource call yields a
state with exactly one layer. -/
theorem buildState_single_eq_singleton_list (u n t : Str) :
    buildState (.single u) (.single n) (.single t) =
      buildState (.list [u]) (.list [n]) (.list [t]) ∧
    ∃ st : ViewerState,
      buildState (.single u) (.single n) (.single t) = .ok st ∧
      st.layers.length = 1 :=
  ⟨rfl, ⟨⟨mkLayers [u] [n] [t]⟩, rfl, rfl⟩⟩

/-- C1 counterexample: `build_state` with two URLs, a single name and the
broadcast type `"zarr"` silently yields one layer instead of reporting the
name/URL length mismatch — the claimed equal-length check does not exist
for the name list. -/
theorem buildState_name_mismatch_truncates :
    buildState (.list [str "u1", str "u2"]) (.list [str "A"])
      (.single (str "zarr")) =
      .ok ⟨[⟨str "image", str "zarr://u1", str "A"⟩]⟩ ∧
    ([str "u1", str "u2"] : List Str).length = 2 ∧
    ([(⟨str "image", str "zarr://u1", str "A"⟩ : Layer)] : List Layer).length = 1 :=
  ⟨rfl, rfl, rfl⟩

/-- C1 amended: after broadcasting a single source-type, `build_state`
reports a configuration error exactly when the type list has length other
than one and is shorter than the URL list (the empty type list included);
a single-entry type list broadcasts and never errors, and a type list at
least as long as the URL list never errors; equal-length inputs produce
one layer per URL with no truncation or padding; but a layer-name list of
a different length, or a type list longer than the URL list, is not
checked — `zip` silently truncates the layers to the shortest of the three
sequences. -/
theorem buildState_length_check_amended :
    (∀ urls names ts : List Str, ts.length ≠ 1 → ts.length < urls.length →
      buildState (.list urls) (.list names) (.list ts) =
        .error (ExitErr.typeCount ts)) ∧
    (∀ urls names ts : List Str, ts.length = 1 →
      ∃ st : ViewerState,
        buildState (.list urls) (.list names) (.list ts) = .ok st ∧
        st.layers.length = min urls.length names.length) ∧
    (∀ (urls names : List Str) (t : Str), names.length = urls.length →
      ∃ st : ViewerState,
        buildState (.list urls) (.list names) (.single t) = .ok st ∧
        st.layers.length = urls.length) ∧
    (∀ urls names ts : List Str, urls.length ≤ ts.length →
      ∃ st : ViewerState,
        buildState (.list urls) (.list names) (.list ts) = .ok st ∧
        st.layers.length = min urls.length (min names.length ts.length)) := by
  refine ⟨?_, ?_, ?_, ?_⟩
  · intro urls names ts h1 h2
    simp only [buildState, StrOrList.toList]
    rw [if_pos h2, if_neg h1]
  · intro urls names ts h1
    obtain ⟨t, rfl⟩ := List.length_eq_one.mp h1
    by_cases hlt : 1 < urls.length
    · refine ⟨⟨mkLayers urls names (repeatList [t] urls.length)⟩, ?_, ?_⟩
      · simp only [buildState, StrOrList.toList]
        rw [if_pos (by simpa using hlt)]
        norm_num
      · simp only [mkLayers_length, repeatList_singleton,
          List.length_replicate]
        omega
    · refine ⟨⟨mkLayers urls names [t]⟩, ?_, ?_⟩
      · simp only [buildState, StrOrList.toList]
        rw [if_neg (by simpa using hlt)]
      · simp only [mkLayers_length, List.length_singleton]
        omega
  · intro urls names t h
    by_cases hlt : 1 < urls.length
    · refine ⟨⟨mkLayers urls names (repeatList [t] urls.length)⟩, ?_, ?_⟩
      · simp only [buildState, StrOrList.toList]
        rw [if_pos (by simpa using hlt)]
        norm_num
      · simp [mkLayers_length, repeatList_singleton, h]
    · refine ⟨⟨mkLayers urls names [t]⟩, ?_, ?_⟩
      · simp only [buildState, StrOrList.toList]
        rw [if_neg (by simpa using hlt)]
      · simp only [mkLayers_length, List.length_singleton, h]
        omega
  · intro urls names ts h
    refine ⟨⟨mkLayers urls names ts⟩, ?_, mkLayers_length urls names ts⟩
    simp only [buildState, StrOrList.toList]
    rw [if_neg (by omega)]

/-- Witness for the amended C1: the empty type list against one URL
errors; a singleton type list against two URLs and one name broadcasts
without error, truncating to one layer; equal-length inputs give two
layers; a type list as long as the URL list with a short name list
silently truncates. -/
theorem buildState_length_check_amended_witness :
    (buildState (.list [str "a"]) (.list [str "A"]) (.list []) =
      .error (ExitErr.typeCount [])) ∧
    (∃ st : ViewerState,
      buildState (.list [str "a", str "b"]) (.list [str "A"])
          (.list [str "z"]) = .ok st ∧
      st.layers.length = min 2 1) ∧
    (∃ st : ViewerState,
      buildState (.list [str "a", str "b"]) (.list [str "A", str "B"])
          (.single (str "zarr")) = .ok st ∧
      st.layers.length = 2) ∧
    (∃ st : ViewerState,
      buildState (.list [str "a", str "b"]) (.list [str "A"])
          (.list [str "z", str "z"]) = .ok st ∧
      st.layers.length = min 2 (min 1 2)) :=
  ⟨buildState_length_check_amended.1 _ _ [] (by decide) (by decide),
    buildState_length_check_amended.2.1 [str "a", str "b"] [str "A"] _ rfl,
    buildState_length_check_amended.2.2.1 [str "a", str "b"] _ (str "zarr") rfl,
    buildState_length_check_amended.2.2.2 [str "a", str "b"] [str "A"] _
      (by decide)⟩

/-! ## Round-trip of percent-encoding -/

lemma hexUpper_spec (n : Nat) (h : n < 16) :
    isHexDigitChar (hexUpper n) = true ∧ hexVal (hexUpper n) = n := by
  interval_cases n <;> decide

lemma percentDecode_cons_ne (c : Nat) (l : List Nat) (h : c ≠ 37) :
    percentDecode (c :: l) = c :: percentDecode l := by
  have hb : (c == 37) = false := by simpa using h
  match l with
  | [] => rfl
  | [a] => rfl
  | a :: b :: t => simp [percentDecode, hb]

lemma percentDecode_escape (h1 h2 : Nat) (l : List Nat)
    (hh1 : isHexDigitChar h1 = true) (hh2 : isHexDigitChar h2 = true) :
    percentDecode (37 :: h1 :: h2 :: l) =
      (16 * hexVal h1 + hexVal h2) :: percentDecode l := by
  simp [percentDecode, hh1, hh2]

lemma percentDecode_percentEncode (s : List Nat) (h : ∀ b ∈ s, b < 256) :
    percentDecode (percentEncode s) = s := by
  induction s with
  | nil => rfl
  | cons b rest ih =>
    have hb : b < 256 := h b (List.mem_cons_self b rest)
    have hrest : ∀ x ∈ rest, x < 256 := fun x hx => h x (List.mem_cons_of_mem b hx)
    show percentDecode (encodeByte b ++ percentEncode rest) = b :: rest
    by_cases hu : isUnreservedChar b
    · have hb37 : b ≠ 37 := by
        intro e; subst e; simp [isUnreservedChar] at hu
      rw [encodeByte, if_pos hu, List.cons_append, List.nil_append,
        percentDecode_cons_ne b _ hb37, ih hrest]
    · rw [encodeByte, if_neg hu]
      have h1 : b / 16 < 16 := by omega
      have h2 : b % 16 < 16 := Nat.mod_lt b (by norm_num)
      obtain ⟨d1, v1⟩ := hexUpper_spec _ h1
      obtain ⟨d2, v2⟩ := hexUpper_spec _ h2
      rw [List.cons_append, List.cons_append, List.cons_append, List.nil_append,
        percentDecode_escape _ _ _ d1 d2, v1, v2, ih hrest]
      congr 1
      omega

/-! ## The serialized state is pure ASCII -/

lemma mem_concatMap {f : α → List β} {l : List α} {b : β} :
    b ∈ concatMap f l ↔ ∃ a ∈ l, b ∈ f a := by
  induction l with
  | nil => simp [concatMap]
  | cons x xs ih => simp [concatMap, ih]

lemma allLt_append {a b : List Nat} (ha : ∀ d ∈ a, d < 128)
    (hb : ∀ d ∈ b, d < 128) : ∀ d ∈ a ++ b, d < 128 := by
  intro d hd
  rcases List.mem_append.mp hd with h | h
  exacts [ha d h, hb d h]

lemma allLt_cons {c : Nat} {l : List Nat} (hc : c < 128)
    (hl : ∀ d ∈ l, d < 128) : ∀ d ∈ c :: l, d < 128 := by
  intro d hd
  rcases List.mem_cons.mp hd with h | h
  · omega
  · exact hl d h

lemma allLt_nil : ∀ d ∈ ([] : List Nat), d < 128 := by simp

lemma u4_lt128 (c : Nat) : ∀ d ∈ u4 c, d < 128 := by
  have h16 : ∀ m : Nat, hexLower (m % 16) < 128 := by
    intro m
    have : m % 16 < 16 := Nat.mod_lt m (by norm_num)
    unfold hexLower
    split <;> omega
  intro d hd
  simp only [u4, List.mem_cons, List.not_mem_nil, or_false] at hd
  rcases hd with h | h | h | h | h | h <;> subst h
  · omega
  · omega
  · exact h16 _
  · exact h16 _
  · exact h16 _
  · exact h16 _

lemma jsonEscapeChar_lt128 (c : Nat) : ∀ d ∈ jsonEscapeChar c, d < 128 := by
  intro d hd
  unfold jsonEscapeChar at hd
  split_ifs at hd with h1 h2 h3 h4 h5 h6 h7 h8 h9
  · simp at hd; omega
  · simp at hd; omega
  · simp at hd; omega
  · simp at hd; omega
  · simp at hd; omega
  · simp at hd; omega
  · simp at hd; omega
  · simp at hd; omega
  · exact u4_lt128 _ _ hd
  · rcases List.mem_append.mp hd with h | h
    exacts [u4_lt128 _ _ h, u4_lt128 _ _ h]

lemma jsonStr_lt128 (s : Str) : ∀ d ∈ jsonStr s, d < 128 := by
  unfold jsonStr
  intro d hd
  rcases List.mem_append.mp hd with h | h
  · rcases List.mem_cons.mp h with h | h
    · omega
    · rcases mem_concatMap.mp h with ⟨c, _, hc⟩
      exact jsonEscapeChar_lt128 c d hc
  · simp at h; omega

lemma serializeLayer_lt128 (l : Layer) : ∀ d ∈ serializeLayer l, d < 128 := by
  unfold serializeLayer
  repeat'
    first
    | exact jsonStr_lt128 _
    | exact allLt_nil
    | apply allLt_append
    | apply allLt_cons (by norm_num)

lemma joinComma_lt128 {xs : List (List Nat)}
    (h : ∀ x ∈ xs, ∀ d ∈ x, d < 128) : ∀ d ∈ joinComma xs, d < 128 := by
  induction xs with
  | nil => simp [joinComma]
  | cons x ys ih =>
    cases ys with
    | nil => simpa [joinComma] using h x (by simp)
    | cons y zs =>
      show ∀ d ∈ x ++ 44 :: joinComma (y :: zs), d < 128
      refine allLt_append (h x (by simp)) (allLt_cons (by norm_num) (ih ?_))
      intro z hz
      exact h z (by simp [List.mem_cons.mp hz])

lemma serializeState_lt128 (st : ViewerState) :
    ∀ d ∈ serializeState st, d < 128 := by
  unfold serializeState
  repeat'
    first
    | exact jsonStr_lt128 _
    | exact joinComma_lt128 (fun x hx => by
        rcases List.mem_map.mp hx with ⟨l, _, rfl⟩
        exact serializeLayer_lt128 l)
    | exact allLt_nil
    | apply allLt_append
    | apply allLt_cons (by norm_num)

/-- C3: for every viewer state built by `build_state`, percent-decoding the
percent-encoded compact JSON serialization reproduces the original JSON
text exactly. -/
theorem state_encode_decode_roundtrip (u n t : StrOrList) (st : ViewerState)
    (h : buildState u n t = .ok st) :
    percentDecode (percentEncode (serializeState st)) = serializeState st :=
  percentDecode_percentEncode _ (fun b hb => by
    have := serializeState_lt128 st b hb
    omega)

/-- Witness for C3 at a concrete built state. -/
theorem state_encode_decode_roundtrip_witness :
    buildState (.single (str "u")) (.single (str "A")) (.single (str "zarr")) =
      .ok ⟨[⟨str "image", str "zarr://u", str "A"⟩]⟩ ∧
    percentDecode (percentEncode
        (serializeState ⟨[⟨str "image", str "zarr://u", str "A"⟩]⟩)) =
      serializeState ⟨[⟨str "image", str "zarr://u", str "A"⟩]⟩ :=
  ⟨rfl, state_encode_decode_roundtrip (.single (str "u")) (.single (str "A"))
    (.single (str "zarr")) _ rfl⟩

/-! ## Character analysis of the serialized JSON -/

lemma hexLower_range (m : Nat) (h : m < 16) :
    48 ≤ hexLower m ∧ hexLower m ≤ 102 := by
  unfold hexLower
  split <;> omega

lemma u4_no_ws (c : Nat) : ∀ d ∈ u4 c, 34 ≤ d := by
  intro d hd
  simp only [u4, List.mem_cons, List.not_mem_nil, or_false] at hd
  rcases hd with h | h | h | h | h | h <;> subst h
  · omega
  · omega
  · have := hexLower_range (c / 4096 % 16) (Nat.mod_lt _ (by norm_num))
    omega
  · have := hexLower_range (c / 256 % 16) (Nat.mod_lt _ (by norm_num))
    omega
  · have := hexLower_range (c / 16 % 16) (Nat.mod_lt _ (by norm_num))
    omega
  · have := hexLower_range (c % 16) (Nat.mod_lt _ (by norm_num))
    omega

lemma jsonEscapeChar_no_ws (c d : Nat) (hd : d ∈ jsonEscapeChar c) :
    (d = 9 ∨ d = 10 ∨ d = 13 → False) ∧ (d = 32 → c = 32) := by
  unfold jsonEscapeChar at hd
  split_ifs at hd with h1 h2 h3 h4 h5 h6 h7 h8 h9
  · simp at hd; omega
  · simp at hd; omega
  · simp at hd; omega
  · simp at hd; omega
  · simp at hd; omega
  · simp at hd; omega
  · simp at hd; omega
  · simp at hd; omega
  · have := u4_no_ws _ _ hd
    omega
  · rcases List.mem_append.mp hd with h | h <;>
      · have := u4_no_ws _ _ h
        omega

lemma jsonStr_no_ws (s : Str) (d : Nat) (hd : d ∈ jsonStr s) :
    (d = 9 ∨ d = 10 ∨ d = 13 → False) ∧ (d = 32 → 32 ∈ s) := by
  unfold jsonStr at hd
  rcases List.mem_append.mp hd with h | h
  · rcases List.mem_cons.mp h with h | h
    · omega
    · rcases mem_concatMap.mp h with ⟨c, hc, hdc⟩
      have := jsonEscapeChar_no_ws c d hdc
      exact ⟨this.1, fun h32 => by
        have := this.2 h32
        subst h32
        simpa [this] using hc⟩
  · simp at h; omega

lemma joinComma_mem {xs : List (List Nat)} {d : Nat} (hd : d ∈ joinComma xs) :
    d = 44 ∨ ∃ x ∈ xs, d ∈ x := by
  induction xs with
  | nil => simp [joinComma] at hd
  | cons x ys ih =>
    cases ys with
    | nil => exact Or.inr ⟨x, by simp, by simpa [joinComma] using hd⟩
    | cons y zs =>
      rcases List.mem_append.mp hd with h | h
      · exact Or.inr ⟨x, by simp, h⟩
      · rcases List.mem_cons.mp h with h | h
        · exact Or.inl h
        · rcases ih h with h | ⟨z, hz, hdz⟩
          · exact Or.inl h
          · exact Or.inr ⟨z, by simp [List.mem_cons.mp hz], hdz⟩

lemma serializeLayer_no_ws (l : Layer) (d : Nat)
    (hd : d ∈ serializeLayer l) :
    (d = 9 ∨ d = 10 ∨ d = 13 → False) ∧
    (d = 32 → 32 ∈ l.type ∨ 32 ∈ l.source ∨ 32 ∈ l.name) := by
  unfold serializeLayer at hd
  rcases List.mem_append.mp hd with h | h
  swap
  · simp at h
    omega
  rcases List.mem_cons.mp h with h | h
  · omega
  rcases List.mem_append.mp h with h | h
  swap
  · rcases List.mem_cons.mp h with h | h
    · omega
    · have := jsonStr_no_ws l.name d h
      exact ⟨this.1, fun h32 => Or.inr (Or.inr (this.2 h32))⟩
  rcases List.mem_append.mp h with h | h
  swap
  · rcases List.mem_cons.mp h with h | h
    · omega
    · have := jsonStr_no_ws (str "name") d h
      exact ⟨this.1, fun h32 => absurd (this.2 h32) (by decide)⟩
  rcases List.mem_append.mp h with h | h
  swap
  · rcases List.mem_cons.mp h with h | h
    · omega
    · have := jsonStr_no_ws l.source d h
      exact ⟨this.1, fun h32 => Or.inr (Or.inl (this.2 h32))⟩
  rcases List.mem_append.mp h with h | h
  swap
  · rcases List.mem_cons.mp h with h | h
    · omega
    · have := jsonStr_no_ws (str "source") d h
      exact ⟨this.1, fun h32 => absurd (this.2 h32) (by decide)⟩
  rcases List.mem_append.mp h with h | h
  · have := jsonStr_no_ws (str "type") d h
    exact ⟨this.1, fun h32 => absurd (this.2 h32) (by decide)⟩
  · rcases List.mem_cons.mp h with h | h
    · omega
    · have := jsonStr_no_ws l.type d h
      exact ⟨this.1, fun h32 => Or.inl (this.2 h32)⟩

lemma serializeState_no_ws (st : ViewerState) (d : Nat)
    (hd : d ∈ serializeState st) :
    (d = 9 ∨ d = 10 ∨ d = 13 → False) ∧
    (d = 32 → ∃ l ∈ st.layers, 32 ∈ l.type ∨ 32 ∈ l.source ∨ 32 ∈ l.name) := by
  unfold serializeState at hd
  rcases List.mem_append.mp hd with h | h
  swap
  · simp at h
    omega
  rcases List.mem_append.mp h with h | h
  · rcases List.mem_cons.mp h with h | h
    · omega
    · have := jsonStr_no_ws (str "layers") d h
      exact ⟨this.1, fun h32 => absurd (this.2 h32) (by decide)⟩
  · rcases List.mem_cons.mp h with h | h
    · omega
    rcases List.mem_cons.mp h with h | h
    · omega
    rcases joinComma_mem h with h | ⟨x, hx, hdx⟩
    · omega
    rcases List.mem_map.mp hx with ⟨l, hl, rfl⟩
    have := serializeLayer_no_ws l d hdx
    exact ⟨this.1, fun h32 => ⟨l, hl, this.2 h32⟩⟩

/-! ## Shape of the traces of `mainRun` -/

lemma symlinkEventsAux_shape (created ps : List Str) :
    ∀ e ∈ symlinkEventsAux created ps,
      (∃ b, e = Event.removeLink b) ∨ ∃ s b, e = Event.symlink s b := by
  induction ps generalizing created with
  | nil => simp [symlinkEventsAux]
  | cons fp rest ih =>
    intro e he
    simp only [symlinkEventsAux] at he
    rcases List.mem_append.mp he with h | h
    · split_ifs at h with hc
      · simp at h
        exact Or.inl ⟨_, h⟩
      · simp at h
    · rcases List.mem_cons.mp h with h | h
      · exact Or.inr ⟨_, _, h⟩
      · exact ih _ e h

lemma symlinkEvents_no_printUrl (paths : List Str) (u : List Nat) :
    Event.printUrl u ∉ symlinkEvents paths := by
  intro h
  rcases symlinkEventsAux_shape [] paths _ h with ⟨b, hb⟩ | ⟨s, b, hb⟩ <;>
    simp at hb

lemma hexUpper_unreserved (n : Nat) (h : n < 16) :
    isUnreservedChar (hexUpper n) = true := by
  interval_cases n <;> decide

lemma percentEncode_chars (s : List Nat) (hs : ∀ b ∈ s, b < 256) :
    ∀ c ∈ percentEncode s, isUnreservedChar c = true ∨ c = 37 := by
  induction s with
  | nil => intro c hc; simp [percentEncode] at hc
  | cons b rest ih =>
    intro c hc
    have hb : b < 256 := hs b (List.mem_cons_self b rest)
    rcases List.mem_append.mp hc with h | h
    · unfold encodeByte at h
      split_ifs at h with hu
      · simp at h
        subst h
        exact Or.inl hu
      · simp at h
        rcases h with h | h | h
        · exact Or.inr h
        · exact Or.inl (h ▸ hexUpper_unreserved _ (by omega))
        · exact Or.inl (h ▸ hexUpper_unreserved _ (Nat.mod_lt _ (by norm_num)))
    · exact ih (fun x hx => hs x (List.mem_cons_of_mem b hx)) c h

lemma mainRun_printUrl (a : Args) (env : Env) (u : List Nat)
    (hu : Event.printUrl u ∈ (mainRun a env).1) :
    ∃ st : ViewerState,
      u = NEUROGLANCER_DEMO ++ percentEncode (serializeState st) := by
  simp only [mainRun] at hu
  cases hfb : firstBadPath a.file_type env (filePathsOf a env) with
  | some p =>
    rw [hfb] at hu
    simp at hu
  | none =>
    rw [hfb] at hu
    split_ifs at hu with hnm hpb hno
    · simp at hu
      exact absurd hu (symlinkEvents_no_printUrl _ u)
    · simp at hu
      exact absurd hu (symlinkEvents_no_printUrl _ u)
    · cases hbs : buildStateMain a (httpUrls a (filePathsOf a env))
          (layerNamesOf a (filePathsOf a env)) with
      | error e =>
        rw [hbs] at hu
        simp at hu
        exact absurd hu (symlinkEvents_no_printUrl _ u)
      | ok st =>
        rw [hbs] at hu
        simp at hu
        rcases hu with hu | hu
        · exact absurd hu (symlinkEvents_no_printUrl _ u)
        · exact ⟨st, hu⟩
    · cases hbs : buildStateMain a (httpUrls a (filePathsOf a env))
          (layerNamesOf a (filePathsOf a env)) with
      | error e =>
        rw [hbs] at hu
        simp at hu
        exact absurd hu (symlinkEvents_no_printUrl _ u)
      | ok st =>
        rw [hbs] at hu
        simp at hu
        rcases hu with hu | hu
        · exact absurd hu (symlinkEvents_no_printUrl _ u)
        · exact ⟨st, hu⟩

/-- C4: the serialized state is compact JSON — it never contains a tab,
newline or carriage return, contains a space only when a layer string
itself does, and serializes with exactly the keys `"layers"`, `"type"`,
`"source"`, `"name"` (shown on a concrete state); the percent-encoding
keeps exactly the unreserved characters and escapes everything else as
`%XX` — in particular the structural characters, which are not unreserved,
so the encoded text consists of unreserved characters and `%` only; and
the printed URL is exactly the fixed viewer base followed by the encoded
serialization. -/
theorem state_json_percent_encoding_exhaustive :
    (∀ s : List Nat, (∀ b ∈ s, b < 256) →
      ∀ c ∈ percentEncode s, isUnreservedChar c = true ∨ c = 37) ∧
    (∀ b : Nat, isUnreservedChar b = false →
      encodeByte b = [37, hexUpper (b / 16), hexUpper (b % 16)]) ∧
    (isUnreservedChar 123 = false ∧ isUnreservedChar 125 = false ∧
      isUnreservedChar 34 = false ∧ isUnreservedChar 58 = false ∧
      isUnreservedChar 44 = false) ∧
    (∀ (st : ViewerState) (d : Nat), d ∈ serializeState st →
      (d ≠ 9 ∧ d ≠ 10 ∧ d ≠ 13) ∧
      (d = 32 → ∃ l ∈ st.layers, 32 ∈ l.type ∨ 32 ∈ l.source ∨ 32 ∈ l.name)) ∧
    (serializeState ⟨[⟨str "image", str "zarr://u", str "A"⟩]⟩ =
      str "\x7b\"layers\":[\x7b\"type\":\"image\",\"source\":\"zarr://u\",\"name\":\"A\"\x7d]\x7d") ∧
    (∀ (a : Args) (env : Env) (u : List Nat),
      Event.printUrl u ∈ (mainRun a env).1 →
      ∃ st : ViewerState,
        u = NEUROGLANCER_DEMO ++ percentEncode (serializeState st)) := by
  refine ⟨percentEncode_chars, ?_, by decide, ?_, by decide, mainRun_printUrl⟩
  · intro b hb
    rw [encodeByte, if_neg (by simp [hb])]
  · intro st d hd
    have := serializeState_no_ws st d hd
    exact ⟨by
      constructor
      · intro e; exact this.1 (Or.inl e)
      constructor
      · intro e; exact this.1 (Or.inr (Or.inl e))
      · intro e; exact this.1 (Or.inr (Or.inr e)), this.2⟩

/-- Witness for C4: the encoded characters of a concrete serialized state
are unreserved or `%`, a structural character is escaped, and the URL
printed by a concrete run is the viewer base plus the encoded state. -/
theorem state_json_percent_encoding_exhaustive_witness :
    (isUnreservedChar 37 = true ∨ (37 : Nat) = 37) ∧
    encodeByte 123 = [37, hexUpper (123 / 16), hexUpper (123 % 16)] ∧
    ((37 : Nat) ∈ percentEncode (str " ") → isUnreservedChar 37 = true ∨ (37 : Nat) = 37) := by
  refine ⟨Or.inr rfl, state_json_percent_encoding_exhaustive.2.1 123 (by decide), ?_⟩
  intro h
  exact state_json_percent_encoding_exhaustive.1 (str " ") (by decide) 37 h

/-- C7: every response finalized by the handler's `end_headers` — success
and error responses of the base handler alike — carries the wildcard
cross-origin-allow header, the expose-headers list naming
content-length/content-range/accept-ranges, and the byte-range
advertisement; the OPTIONS preflight response is a 204 with the allowed
methods `GET, OPTIONS`, the wildcard origin header, and no body. -/
theorem responses_carry_cors_range_headers :
    (∀ (status : Nat) (hs : List Header) (body : Option (List Nat)),
      (str "Access-Control-Allow-Origin", str "*") ∈
        (finalizeResponse status hs body).headers ∧
      (str "Access-Control-Expose-Headers",
        str "Content-Length, Content-Range, Accept-Ranges") ∈
        (finalizeResponse status hs body).headers ∧
      (str "Accept-Ranges", str "bytes") ∈
        (finalizeResponse status hs body).headers) ∧
    doOptionsResponse.status = 204 ∧
    (str "Access-Control-Allow-Methods", str "GET, OPTIONS") ∈
      doOptionsResponse.headers ∧
    (str "Access-Control-Allow-Origin", str "*") ∈
      doOptionsResponse.headers ∧
    doOptionsResponse.body = none := by
  refine ⟨?_, rfl, by decide, by decide, rfl⟩
  intro status hs body
  refine ⟨?_, ?_, ?_⟩ <;> simp [finalizeResponse, endHeaders]

/-! ## Probe-before-bind ordering -/

/-- `true` iff no server start occurs before the first port probe. -/
def probePrecedesBind : List Event → Bool
  | [] => true
  | Event.startServer :: _ => false
  | Event.probe :: _ => true
  | _ :: rest => probePrecedesBind rest

lemma symlinkEvents_neutral (paths : List Str) :
    ∀ e ∈ symlinkEvents paths, e ≠ Event.probe ∧ e ≠ Event.startServer := by
  intro e he
  rcases symlinkEventsAux_shape [] paths e he with ⟨b, rfl⟩ | ⟨s, b, rfl⟩ <;>
    simp

lemma probePrecedesBind_neutral (l t : List Event)
    (h : ∀ e ∈ l, e ≠ Event.probe ∧ e ≠ Event.startServer) :
    probePrecedesBind (l ++ t) = probePrecedesBind t := by
  induction l with
  | nil => rfl
  | cons e l' ih =>
    have he := h e (List.mem_cons_self _ _)
    have hrest : ∀ x ∈ l', x ≠ Event.probe ∧ x ≠ Event.startServer :=
      fun x hx => h x (List.mem_cons_of_mem _ hx)
    cases e <;> simp_all [probePrecedesBind]

lemma probePrecedesBind_ev1 (P : List Str) :
    probePrecedesBind (Event.mkdtemp :: symlinkEvents P) = true := by
  have h : probePrecedesBind (Event.mkdtemp :: symlinkEvents P) =
      probePrecedesBind (symlinkEvents P) := rfl
  rw [h, ← List.append_nil (symlinkEvents P),
     probePrecedesBind_neutral _ _ (symlinkEvents_neutral P)]
  rfl

lemma probePrecedesBind_trace (P : List Str) (rest : List Event) :
    probePrecedesBind ((Event.mkdtemp :: symlinkEvents P) ++
      ([Event.probe] ++ rest)) = true := by
  rw [List.cons_append]
  have h : probePrecedesBind (Event.mkdtemp ::
        (symlinkEvents P ++ ([Event.probe] ++ rest))) =
      probePrecedesBind (symlinkEvents P ++ ([Event.probe] ++ rest)) := rfl
  rw [h, probePrecedesBind_neutral _ _ (symlinkEvents_neutral P)]
  rfl

/-! ## Branch equations for `mainRun` -/

lemma mainRun_badPath {a : Args} {env : Env} {p : Str}
    (h : firstBadPath a.file_type env (filePathsOf a env) = some p) :
    mainRun a env = ([], .error (mkPathErr a.file_type p)) := by
  simp only [mainRun, h]

lemma mainRun_nameCount {a : Args} {env : Env}
    (h : firstBadPath a.file_type env (filePathsOf a env) = none)
    (hnm : nameMismatch a (filePathsOf a env) = true) :
    mainRun a env =
      (Event.mkdtemp :: symlinkEvents (filePathsOf a env),
       .error ExitErr.nameCount) := by
  simp only [mainRun, h, hnm, if_true]

lemma mainRun_portBusy {a : Args} {env : Env}
    (h : firstBadPath a.file_type env (filePathsOf a env) = none)
    (hnm : nameMismatch a (filePathsOf a env) = false)
    (hpu : env.portInUse = true) :
    mainRun a env =
      ((Event.mkdtemp :: symlinkEvents (filePathsOf a env)) ++ [Event.probe],
       .error ExitErr.portBusy) := by
  simp only [mainRun, h, hnm, hpu, Bool.false_eq_true, if_false, if_true]

lemma mainRun_buildErr {a : Args} {env : Env} {e : ExitErr}
    (h : firstBadPath a.file_type env (filePathsOf a env) = none)
    (hnm : nameMismatch a (filePathsOf a env) = false)
    (hpu : env.portInUse = false)
    (hbs : buildStateMain a (httpUrls a (filePathsOf a env))
      (layerNamesOf a (filePathsOf a env)) = .error e) :
    mainRun a env =
      ((Event.mkdtemp :: symlinkEvents (filePathsOf a env)) ++ [Event.probe] ++
        [Event.startServer], .error e) := by
  simp only [mainRun, h, hnm, hpu, hbs, Bool.false_eq_true, if_false]

lemma mainRun_ok_noopen {a : Args} {env : Env} {st : ViewerState}
    (h : firstBadPath a.file_type env (filePathsOf a env) = none)
    (hnm : nameMismatch a (filePathsOf a env) = false)
    (hpu : env.portInUse = false)
    (hbs : buildStateMain a (httpUrls a (filePathsOf a env))
      (layerNamesOf a (filePathsOf a env)) = .ok st)
    (hno : a.no_open = true) :
    mainRun a env =
      ((Event.mkdtemp :: symlinkEvents (filePathsOf a env)) ++ [Event.probe] ++
        [Event.startServer] ++
        [Event.printUrl (NEUROGLANCER_DEMO ++
          percentEncode (serializeState st))], .ok ()) := by
  simp only [mainRun, h, hnm, hpu, hbs, hno, Bool.false_eq_true, if_false,
    if_true]

lemma mainRun_ok_open {a : Args} {env : Env} {st : ViewerState}
    (h : firstBadPath a.file_type env (filePathsOf a env) = none)
    (hnm : nameMismatch a (filePathsOf a env) = false)
    (hpu : env.portInUse = false)
    (hbs : buildStateMain a (httpUrls a (filePathsOf a env))
      (layerNamesOf a (filePathsOf a env)) = .ok st)
    (hno : a.no_open = false) :
    mainRun a env =
      ((Event.mkdtemp :: symlinkEvents (filePathsOf a env)) ++ [Event.probe] ++
        [Event.startServer] ++
        [Event.printUrl (NEUROGLANCER_DEMO ++
          percentEncode (serializeState st))] ++
        [Event.openBrowser (NEUROGLANCER_DEMO ++
          percentEncode (serializeState st))], .ok ()) := by
  simp only [mainRun, h, hnm, hpu, hbs, hno, Bool.false_eq_true, if_false]

/-- C5: when the requested port is already bound at probe time, `main`
never emits a server start and, once the probe has run, exits with the
port-contention error; and in every run the probe comes strictly before
any server start. -/
theorem port_probe_precedes_bind (a : Args) (env : Env) :
    (env.portInUse = true →
      Event.startServer ∉ (mainRun a env).1 ∧
      (Event.probe ∈ (mainRun a env).1 →
        (mainRun a env).2 = .error ExitErr.portBusy)) ∧
    probePrecedesBind (mainRun a env).1 = true := by
  cases hfb : firstBadPath a.file_type env (filePathsOf a env) with
  | some p =>
    rw [mainRun_badPath hfb]
    exact ⟨fun _ => ⟨by simp, by simp⟩, rfl⟩
  | none =>
    by_cases hnm : nameMismatch a (filePathsOf a env) = true
    · rw [mainRun_nameCount hfb hnm]
      refine ⟨fun _ => ⟨?_, ?_⟩, probePrecedesBind_ev1 _⟩
      · intro hmem
        rcases List.mem_cons.mp hmem with h | h
        · simp at h
        · exact (symlinkEvents_neutral _ _ h).2 rfl
      · intro hp
        rcases List.mem_cons.mp hp with h | h
        · simp at h
        · exact absurd rfl ((symlinkEvents_neutral _ _ h).1)
    · have hnm' : nameMismatch a (filePathsOf a env) = false := by
        simpa using hnm
      by_cases hpu : env.portInUse = true
      · rw [mainRun_portBusy hfb hnm' hpu]
        refine ⟨fun _ => ⟨?_, fun _ => rfl⟩, probePrecedesBind_trace _ []⟩
        intro hmem
        rcases List.mem_append.mp hmem with h | h
        · rcases List.mem_cons.mp h with h | h
          · simp at h
          · exact (symlinkEvents_neutral _ _ h).2 rfl
        · simp at h
      · have hpu' : env.portInUse = false := by simpa using hpu
        refine ⟨fun hc => absurd hc hpu, ?_⟩
        cases hbs : buildStateMain a (httpUrls a (filePathsOf a env))
            (layerNamesOf a (filePathsOf a env)) with
        | error e =>
          rw [mainRun_buildErr hfb hnm' hpu' hbs]
          have := probePrecedesBind_trace (filePathsOf a env)
            [Event.startServer]
          simpa [List.append_assoc] using this
        | ok st =>
          by_cases hno : a.no_open = true
          · rw [mainRun_ok_noopen hfb hnm' hpu' hbs hno]
            have := probePrecedesBind_trace (filePathsOf a env)
              ([Event.startServer] ++
                [Event.printUrl (NEUROGLANCER_DEMO ++
                  percentEncode (serializeState st))])
            simpa [List.append_assoc] using this
          · have hno' : a.no_open = false := by simpa using hno
            rw [mainRun_ok_open hfb hnm' hpu' hbs hno']
            have := probePrecedesBind_trace (filePathsOf a env)
              ([Event.startServer] ++
                [Event.printUrl (NEUROGLANCER_DEMO ++
                  percentEncode (serializeState st))] ++
                [Event.openBrowser (NEUROGLANCER_DEMO ++
                  percentEncode (serializeState st))])
            simpa [List.append_assoc] using this

/-- Arguments of a run against a busy port: one path, a `--file_type`
tag that skips validation, no browser launch. -/
def argsBusy : Args :=
  { file_path := [str "/v.zarr"], host := str "h", port := 5000,
    name := none, file_type := some (str "x"), no_open := true }

/-- Environment with the identity `abspath`, no directories, busy port. -/
def envBusy : Env :=
  { abspath := fun s => s, isDir := fun _ => false,
    fileExists := fun _ => false, portInUse := true }

/-- Witness for C5 on a concrete busy-port run. -/
theorem port_probe_precedes_bind_witness :
    (Event.startServer ∉ (mainRun argsBusy envBusy).1 ∧
      (Event.probe ∈ (mainRun argsBusy envBusy).1 →
        (mainRun argsBusy envBusy).2 = .error ExitErr.portBusy)) ∧
    probePrecedesBind (mainRun argsBusy envBusy).1 = true :=
  ⟨(port_probe_precedes_bind argsBusy envBusy).1 rfl,
   (port_probe_precedes_bind argsBusy envBusy).2⟩

/-- Arguments with one `.nii.gz` path under `--file_type nii.gz`. -/
def argsGhost : Args :=
  { file_path := [str "/ghost.nii.gz"], host := str "h", port := 1,
    name := none, file_type := some (str "nii.gz"), no_open := true }

/-- Environment in which no path exists (and hence none is a directory),
with a free port: the filesystem state of a nonexistent input. -/
def envGhost : Env :=
  { abspath := fun s => s, isDir := fun _ => false,
    fileExists := fun _ => false, portInUse := false }

/-- C6 counterexample: a nonexistent path `/ghost.nii.gz` under
`--file_type nii.gz` fails the claim's validation predicate ("an existing
non-directory file ending in .nii.gz"), yet the code's validation loop
(line 110, which never tests existence) accepts it: the run creates a
dangling symlink, binds the server socket, and completes normally instead
of exiting before any socket is opened. -/
theorem dangling_nii_passes_validation_binds_socket :
    pathValidSpec argsGhost.file_type envGhost (str "/ghost.nii.gz") = false ∧
    pathValid argsGhost.file_type envGhost (str "/ghost.nii.gz") = true ∧
    Event.symlink (str "/ghost.nii.gz")
        (basename (rstripSlash (str "/ghost.nii.gz"))) ∈
      (mainRun argsGhost envGhost).1 ∧
    Event.startServer ∈ (mainRun argsGhost envGhost).1 ∧
    (mainRun argsGhost envGhost).2 = .ok () :=
  ⟨rfl, rfl, by decide, by decide, rfl⟩

/-- C6 amended: when some input path fails the validation the code
actually performs for the active source-type — for the default `"zarr"`
type, not a directory ending in `".zarr"`; for `"nii.gz"`, a directory or
a path not ending in `".nii.gz"` (existence is not checked) — `main` exits
with the corresponding fatal configuration error having emitted no event
at all, in particular neither the port probe (the only client socket) nor
a server start. -/
theorem invalid_path_exits_before_any_socket (a : Args) (env : Env)
    (h : ∃ p ∈ filePathsOf a env, pathValid a.file_type env p = false) :
    (mainRun a env).1 = [] ∧
    ∃ q, (mainRun a env).2 = .error (mkPathErr a.file_type q) ∧
      pathValid a.file_type env q = false := by
  obtain ⟨p, hp, hpv⟩ := h
  have hne : firstBadPath a.file_type env (filePathsOf a env) ≠ none := by
    intro hn
    have := List.find?_eq_none.mp hn p hp
    simp [hpv] at this
  cases hfb : firstBadPath a.file_type env (filePathsOf a env) with
  | none => exact absurd hfb hne
  | some q =>
    have hq := List.find?_some hfb
    rw [mainRun_badPath hfb]
    refine ⟨rfl, q, rfl, ?_⟩
    simpa using hq

/-- Arguments with one non-zarr path and the default (absent) file type. -/
def argsBad : Args :=
  { file_path := [str "/v"], host := str "h", port := 5000,
    name := none, file_type := none, no_open := true }

/-- Witness for C6: a non-directory path without the `.zarr` suffix under
the default type exits with the zarr configuration error and an empty
trace. -/
theorem invalid_path_exits_before_any_socket_witness :
    (∃ p ∈ filePathsOf argsBad envBusy,
      pathValid argsBad.file_type envBusy p = false) ∧
    (mainRun argsBad envBusy).1 = [] ∧
    (∃ q, (mainRun argsBad envBusy).2 = .error (mkPathErr argsBad.file_type q) ∧
      pathValid argsBad.file_type envBusy q = false) :=
  ⟨⟨str "/v", by decide, by decide⟩,
    invalid_path_exits_before_any_socket argsBad envBusy
      ⟨str "/v", by decide, by decide⟩⟩

/-- Environment with the identity `abspath`, no directories, free port. -/
def envFree : Env :=
  { abspath := fun s => s, isDir := fun _ => false,
    fileExists := fun _ => false, portInUse := false }

/-- Arguments with two paths, one `--name` override, a validation-skipping
file type. -/
def argsN : Args :=
  { file_path := [str "/a", str "/b"], host := str "h", port := 1,
    name := some [str "A"], file_type := some (str "x"), no_open := true }

/-- Arguments with one path and `--name` given with zero values. -/
def argsEmptyName : Args :=
  { file_path := [str "/v"], host := str "h", port := 1,
    name := some [], file_type := some (str "x"), no_open := true }

/-- C8 counterexample: `--name` supplied with zero overrides against one
input path — the override count 0 differs from the path count 1, yet the
run does not exit with a configuration error: it reaches the final wait
(`.ok ()`) because Python truthiness treats the empty list like an absent
flag, and the layer names silently default to the basenames. -/
theorem empty_name_overrides_not_rejected :
    Args.name argsEmptyName = some [] ∧
    ([] : List Str).length ≠ (filePathsOf argsEmptyName envFree).length ∧
    (mainRun argsEmptyName envFree).2 = .ok () ∧
    layerNamesOf argsEmptyName (filePathsOf argsEmptyName envFree) =
      (filePathsOf argsEmptyName envFree).map basename :=
  ⟨rfl, by decide, rfl, rfl⟩

/-- C8 amended: a *nonempty* `--name` override list whose count differs
from the path count makes `main` exit with the name-count configuration
error; an absent or empty override list makes each layer name default to
the basename of its path. -/
theorem name_count_check_amended (a : Args) (env : Env)
    (hval : firstBadPath a.file_type env (filePathsOf a env) = none) :
    (∀ ns : List Str, a.name = some ns → ns ≠ [] →
      ns.length ≠ (filePathsOf a env).length →
      (mainRun a env).2 = .error ExitErr.nameCount) ∧
    ((a.name = none ∨ a.name = some []) →
      layerNamesOf a (filePathsOf a env) = (filePathsOf a env).map basename) := by
  constructor
  · intro ns hns hne hlen
    have hnm : nameMismatch a (filePathsOf a env) = true := by
      simp only [nameMismatch, hns]
      cases ns with
      | nil => exact absurd rfl hne
      | cons x xs =>
        simp only [List.length_cons] at hlen
        simp [hlen]
    rw [mainRun_nameCount hval hnm]
  · intro hcase
    rcases hcase with h | h <;> simp [layerNamesOf, h]

/-- Witness for the amended C8: one override against two paths exits with
the name-count error; an absent override list yields basename names. -/
theorem name_count_check_amended_witness :
    (mainRun argsN envFree).2 = .error ExitErr.nameCount ∧
    layerNamesOf argsBusy (filePathsOf argsBusy envBusy) =
      (filePathsOf argsBusy envBusy).map basename :=
  ⟨(name_count_check_amended argsN envFree (by decide)).1 [str "A"] rfl
      (by decide) (by decide),
   (name_count_check_amended argsBusy envBusy (by decide)).2 (Or.inl rfl)⟩

lemma symlink_mem_symlinkEventsAux (created ps : List Str) (fp : Str)
    (hfp : fp ∈ ps) :
    Event.symlink fp (basename (rstripSlash fp)) ∈
      symlinkEventsAux created ps := by
  induction ps generalizing created with
  | nil => simp at hfp
  | cons q rest ih =>
    simp only [symlinkEventsAux]
    apply List.mem_append.mpr
    right
    rcases List.mem_cons.mp hfp with h | h
    · subst h
      exact List.mem_cons_self _ _
    · exact List.mem_cons_of_mem _ (ih _ h)

/-- C10: an explicit `--file_type` other than `"zarr"` and `"nii.gz"`
disables path validation entirely — every path (whatever its extension or
directory status) is accepted — and the run proceeds to create the
temporary root and one symlink per input path, and, when the name count
matches and the port is free, to start the server. -/
theorem unknown_file_type_skips_validation (a : Args) (env : Env) (t : Str)
    (hft : a.file_type = some t) (h1 : t ≠ str "zarr")
    (h2 : t ≠ str "nii.gz") :
    (∀ fp : Str, pathValid a.file_type env fp = true) ∧
    Event.mkdtemp ∈ (mainRun a env).1 ∧
    (∀ fp ∈ filePathsOf a env,
      Event.symlink fp (basename (rstripSlash fp)) ∈ (mainRun a env).1) ∧
    (nameMismatch a (filePathsOf a env) = false → env.portInUse = false →
      Event.startServer ∈ (mainRun a env).1) := by
  have hvalid : ∀ fp : Str, pathValid a.file_type env fp = true := by
    intro fp
    simp [pathValid, hft, h1, h2]
  have hfb : firstBadPath a.file_type env (filePathsOf a env) = none :=
    List.find?_eq_none.mpr (fun x _ => by simp [hvalid x])
  have htr : ∃ rest, (mainRun a env).1 =
      (Event.mkdtemp :: symlinkEvents (filePathsOf a env)) ++ rest := by
    by_cases hnm : nameMismatch a (filePathsOf a env) = true
    · exact ⟨[], by rw [mainRun_nameCount hfb hnm]; simp⟩
    · have hnm' : nameMismatch a (filePathsOf a env) = false := by
        simpa using hnm
      by_cases hpu : env.portInUse = true
      · exact ⟨[Event.probe], by rw [mainRun_portBusy hfb hnm' hpu]⟩
      · have hpu' : env.portInUse = false := by simpa using hpu
        cases hbs : buildStateMain a (httpUrls a (filePathsOf a env))
            (layerNamesOf a (filePathsOf a env)) with
        | error e =>
          exact ⟨[Event.probe] ++ [Event.startServer],
            by rw [mainRun_buildErr hfb hnm' hpu' hbs]; simp⟩
        | ok st =>
          by_cases hno : a.no_open = true
          · exact ⟨[Event.probe] ++ [Event.startServer] ++
              [Event.printUrl (NEUROGLANCER_DEMO ++
                percentEncode (serializeState st))],
              by rw [mainRun_ok_noopen hfb hnm' hpu' hbs hno]; simp⟩
          · have hno' : a.no_open = false := by simpa using hno
            exact ⟨[Event.probe] ++ [Event.startServer] ++
              [Event.printUrl (NEUROGLANCER_DEMO ++
                percentEncode (serializeState st))] ++
              [Event.openBrowser (NEUROGLANCER_DEMO ++
                percentEncode (serializeState st))],
              by rw [mainRun_ok_open hfb hnm' hpu' hbs hno']; simp⟩
  obtain ⟨rest, htr⟩ := htr
  refine ⟨hvalid, by rw [htr]; simp, ?_, ?_⟩
  · intro fp hfp
    rw [htr]
    apply List.mem_append.mpr
    left
    exact List.mem_cons_of_mem _ (symlink_mem_symlinkEventsAux _ _ _ hfp)
  · intro hnm' hpu'
    cases hbs : buildStateMain a (httpUrls a (filePathsOf a env))
        (layerNamesOf a (filePathsOf a env)) with
    | error e =>
      rw [mainRun_buildErr hfb hnm' hpu' hbs]
      simp
    | ok st =>
      by_cases hno : a.no_open = true
      · rw [mainRun_ok_noopen hfb hnm' hpu' hbs hno]
        simp
      · have hno' : a.no_open = false := by simpa using hno
        rw [mainRun_ok_open hfb hnm' hpu' hbs hno']
        simp

/-- Witness for C10 on a concrete run with `--file_type x`. -/
theorem unknown_file_type_skips_validation_witness :
    pathValid argsEmptyName.file_type envFree (str "/weird") = true ∧
    Event.mkdtemp ∈ (mainRun argsEmptyName envFree).1 ∧
    Event.symlink (str "/v") (basename (rstripSlash (str "/v"))) ∈
      (mainRun argsEmptyName envFree).1 ∧
    Event.startServer ∈ (mainRun argsEmptyName envFree).1 := by
  have H := unknown_file_type_skips_validation argsEmptyName envFree
    (str "x") rfl (by decide) (by decide)
  exact ⟨H.1 (str "/weird"), H.2.1, H.2.2.1 (str "/v") (by decide),
    H.2.2.2 (by decide) rfl⟩
